import Mathlib

/-!
# Verification of the climb-count session/draft store

Shallow embedding of the `ClimbModel` session/draft store, the `RouteModel`
delete operation, the localStorage→IndexedDB migration, and the controller-level
operations (`ClimbController`) of the climb-count application, together with
proofs about their contracts.

Modelling conventions:
* JavaScript dynamic values appearing in attempt fields are modelled by `JSVal`.
* `Date` values are modelled by their millisecond count (`Nat`); `Date.now()`
  and `new Date()` are supplied as an explicit `now : Nat` argument.
* Thrown `Error`s are modelled by `Except String`, carrying the message.
* The IndexedDB `drafts` object store holds at most the one record keyed
  `"current"`, so it is modelled as an `Option Session`; the `sessions` object
  store (rewritten wholesale by `saveSessions`) is a `List Session`.
-/

namespace ClimbCount

/-- A JavaScript value, restricted to the shapes that flow through the
attempt fields of this application: primitives, `Date`s, and route-snapshot
objects `{ name, color, createdAt }`. -/
inductive JSVal where
  | vUndef
  | vNull
  | vBool (b : Bool)
  | vNum (n : Int)
  | vStr (s : String)
  | vDate (t : Nat)
  | vRoute (name color : String) (createdAt : JSVal)
deriving Repr, DecidableEq

/-- JavaScript truthiness of a `JSVal`. -/
def JSVal.truthy : JSVal → Bool
  | .vUndef => false
  | .vNull => false
  | .vBool b => b
  | .vNum n => n != 0
  | .vStr s => s != ""
  | .vDate _ => true
  | .vRoute _ _ _ => true

/-- `v === null || v === undefined`. -/
def JSVal.isNullish : JSVal → Bool
  | .vNull => true
  | .vUndef => true
  | _ => false

/-- Whether a value is a boolean (`typeof v === "boolean"`). -/
def JSVal.isBool : JSVal → Bool
  | .vBool _ => true
  | _ => false

/-- One logged climb, as built by `addAttemptToCurrentSession`. -/
structure Attempt where
  id : Nat
  timestamp : Nat
  routeId : JSVal
  route : JSVal
  success : JSVal
  notes : JSVal
deriving Repr, DecidableEq

/-- A climbing session `{ id, date, gym, attempts }`. -/
structure Session where
  id : Nat
  date : Nat
  gym : JSVal
  attempts : List Attempt
deriving Repr, DecidableEq

/-- The state of a `ClimbModel` instance: the in-memory history list and open
session, plus the persisted `drafts` record keyed `"current"` and the
persisted `sessions` store. -/
structure ClimbState where
  sessions : List Session
  currentSession : Option Session
  draftStore : Option Session
  sessionsStore : List Session
deriving Repr, DecidableEq

/-- A fresh store: no history, no open session, no draft. -/
def initState : ClimbState := ⟨[], none, none, []⟩

/-- `ClimbModel.saveDraft`: writes `{ id: "current", ...currentSession }` when a
session is open, returns `false` (writing nothing) otherwise. -/
def saveDraft (st : ClimbState) : Bool × ClimbState :=
  match st.currentSession with
  | none => (false, st)
  | some c => (true, { st with draftStore := some c })

/-- `ClimbModel.deleteDraft`: removes the record keyed `"current"`. -/
def deleteDraft (st : ClimbState) : ClimbState :=
  { st with draftStore := none }

/-- `ClimbModel.saveSessions`: clears the persisted store and rewrites it from
the in-memory history list. -/
def saveSessions (st : ClimbState) : ClimbState :=
  { st with sessionsStore := st.sessions }

/-- The argument object of `startNewSession`. -/
structure SessionData where
  date : JSVal
  gym : JSVal
deriving Repr, DecidableEq

/-- `new Date(v)` modelled on millisecond counts; date-string inputs are
modelled pre-parsed as `vDate`. -/
def jsNewDate : JSVal → Nat
  | .vDate t => t
  | .vNum n => n.toNat
  | _ => 0

/-- `ClimbModel.startNewSession`: validates `date` and `gym` for truthiness and
then unconditionally replaces the open-session reference. -/
def startNewSession (now : Nat) (d : SessionData) (st : ClimbState) :
    Except String (Session × ClimbState) :=
  if !d.date.truthy || !d.gym.truthy then
    .error "Session date and gym/location are required"
  else
    let s : Session := { id := now, date := jsNewDate d.date, gym := d.gym, attempts := [] }
    .ok (s, { st with currentSession := some s })

/-- The argument object of `addAttemptToCurrentSession`; an absent property
reads as `vUndef`. -/
structure AttemptData where
  routeId : JSVal := .vUndef
  route : JSVal := .vUndef
  success : JSVal := .vUndef
  notes : JSVal := .vUndef
deriving Repr, DecidableEq

/-- `ClimbModel.addAttemptToCurrentSession`: requires an open session and a
truthy `route` with non-nullish `success`; appends the new attempt and saves
the draft. -/
def addAttemptToCurrentSession (now : Nat) (d : AttemptData) (st : ClimbState) :
    Except String (Attempt × ClimbState) :=
  match st.currentSession with
  | none => .error "No active session"
  | some c =>
    if !d.route.truthy || d.success.isNullish then
      .error "Route and result are required"
    else
      let a : Attempt :=
        { id := now, timestamp := now, routeId := d.routeId, route := d.route,
          success := d.success,
          notes := if d.notes.truthy then d.notes else .vNull }
      let c' := { c with attempts := c.attempts ++ [a] }
      .ok (a, (saveDraft { st with currentSession := some c' }).2)

/-- The patch object of `updateAttempt`; `none` models an absent property
(which reads as `undefined`). -/
structure AttemptPatch where
  routeId : Option JSVal := none
  route : Option JSVal := none
  success : Option JSVal := none
  notes : Option JSVal := none
deriving Repr, DecidableEq

/-- Truthiness of `updatedData.route` (absent reads as `undefined`). -/
def patchRouteTruthy (p : AttemptPatch) : Bool :=
  match p.route with
  | none => false
  | some v => v.truthy

/-- `updatedData.success === null || updatedData.success === undefined`
(absent reads as `undefined`). -/
def patchSuccessNullish (p : AttemptPatch) : Bool :=
  match p.success with
  | none => true
  | some v => v.isNullish

/-- `{ ...originalAttempt, ...updatedData, id: attemptId,
timestamp: originalAttempt.timestamp }`: every property supplied by the patch
overwrites the original, then `id` and `timestamp` are forced back. -/
def applyPatch (attemptId : Nat) (orig : Attempt) (p : AttemptPatch) : Attempt :=
  { id := attemptId
    timestamp := orig.timestamp
    routeId := p.routeId.getD orig.routeId
    route := p.route.getD orig.route
    success := p.success.getD orig.success
    notes := p.notes.getD orig.notes }

/-- Replace the first list element satisfying `pred` (the `findIndex` target)
by its image under `f`. -/
def updateFirst (pred : α → Bool) (f : α → α) : List α → List α
  | [] => []
  | x :: xs => if pred x then f x :: xs else x :: updateFirst pred f xs

/-- Remove the first list element satisfying `pred` (a `splice` at the
`findIndex` position). -/
def removeFirst (pred : α → Bool) : List α → List α
  | [] => []
  | x :: xs => if pred x then xs else x :: removeFirst pred xs

/-- `ClimbModel.updateAttemptInCurrentSession`. -/
def updateAttemptInCurrentSession (attemptId : Nat) (p : AttemptPatch)
    (st : ClimbState) : Except String (Attempt × ClimbState) :=
  match st.currentSession with
  | none => .error "No active session"
  | some c =>
    match c.attempts.find? (fun a => a.id == attemptId) with
    | none => .error "Attempt not found in current session"
    | some orig =>
      if patchRouteTruthy p && patchSuccessNullish p then
        .error "Route and result are required"
      else
        let a := applyPatch attemptId orig p
        let c' := { c with
          attempts := updateFirst (fun x => x.id == attemptId) (fun _ => a) c.attempts }
        .ok (a, (saveDraft { st with currentSession := some c' }).2)

/-- `ClimbModel.updateAttempt`: looks the session up in history first, falling
back to the current session when the ids match. -/
def updateAttempt (sessionId attemptId : Nat) (p : AttemptPatch)
    (st : ClimbState) : Except String (Attempt × ClimbState) :=
  match st.sessions.find? (fun s => s.id == sessionId) with
  | none =>
    match st.currentSession with
    | some c =>
      if c.id == sessionId then updateAttemptInCurrentSession attemptId p st
      else .error "Session not found"
    | none => .error "Session not found"
  | some s =>
    match s.attempts.find? (fun a => a.id == attemptId) with
    | none => .error "Attempt not found"
    | some orig =>
      if patchRouteTruthy p && patchSuccessNullish p then
        .error "Route and result are required"
      else
        let a := applyPatch attemptId orig p
        let sessions' := updateFirst (fun x => x.id == sessionId)
          (fun ses => { ses with
            attempts := updateFirst (fun x => x.id == attemptId) (fun _ => a) ses.attempts })
          st.sessions
        .ok (a, saveSessions { st with sessions := sessions' })

/-- `ClimbModel.deleteAttemptFromCurrentSession`. -/
def deleteAttemptFromCurrentSession (attemptId : Nat) (st : ClimbState) :
    Except String (Attempt × ClimbState) :=
  match st.currentSession with
  | none => .error "No active session"
  | some c =>
    match c.attempts.find? (fun a => a.id == attemptId) with
    | none => .error "Attempt not found in current session"
    | some att =>
      let c' := { c with
        attempts := removeFirst (fun x => x.id == attemptId) c.attempts }
      .ok (att, (saveDraft { st with currentSession := some c' }).2)

/-- `ClimbModel.deleteAttempt`: same session lookup as `updateAttempt`; removes
the attempt by `splice` and persists the history. -/
def deleteAttempt (sessionId attemptId : Nat) (st : ClimbState) :
    Except String (Attempt × ClimbState) :=
  match st.sessions.find? (fun s => s.id == sessionId) with
  | none =>
    match st.currentSession with
    | some c =>
      if c.id == sessionId then deleteAttemptFromCurrentSession attemptId st
      else .error "Session not found"
    | none => .error "Session not found"
  | some s =>
    match s.attempts.find? (fun a => a.id == attemptId) with
    | none => .error "Attempt not found"
    | some att =>
      let sessions' := updateFirst (fun x => x.id == sessionId)
        (fun ses => { ses with
          attempts := removeFirst (fun x => x.id == attemptId) ses.attempts })
        st.sessions
      .ok (att, saveSessions { st with sessions := sessions' })

/-- `ClimbModel.finishCurrentSession`: requires an open session with at least
one attempt; appends it to history, clears the open-session reference, deletes
the draft, persists the history. -/
def finishCurrentSession (st : ClimbState) : Except String (Session × ClimbState) :=
  match st.currentSession with
  | none => .error "No session to finish or no attempts logged"
  | some c =>
    if c.attempts.isEmpty then
      .error "No session to finish or no attempts logged"
    else
      .ok (c, saveSessions (deleteDraft
        { st with sessions := st.sessions ++ [c], currentSession := none }))

/-- `ClimbModel.getCurrentSession`. -/
def getCurrentSession (st : ClimbState) : Option Session :=
  st.currentSession

/-- `ClimbModel.getAllAttempts`. -/
def getAllAttempts (st : ClimbState) : List Attempt :=
  st.sessions.flatMap (fun s => s.attempts)

/-- The value `((totalSuccess / totalAttempts) * 100).toFixed(1)` may take:
either a number or a string. -/
inductive RateVal where
  | rnum (n : Nat)
  | rstr (s : String)
deriving Repr, DecidableEq

/-- The result object of `getOverallStats`. -/
structure OverallStats where
  totalSessions : Nat
  totalAttempts : Nat
  totalSuccess : Nat
  overallSuccessRate : RateVal
deriving Repr, DecidableEq

/-- JavaScript `x.toFixed(1)` for the nonnegative rational `num / den`
(`den > 0`): round to one decimal place, half away from zero, and render as
`"<integer part>.<digit>"`. -/
def toFixed1 (num den : Nat) : String :=
  let n10 := (20 * num + den) / (2 * den)
  toString (n10 / 10) ++ "." ++ toString (n10 % 10)

/-- `ClimbModel.getOverallStats`. -/
def getOverallStats (st : ClimbState) : OverallStats :=
  let allAttempts := getAllAttempts st
  let totalAttempts := allAttempts.length
  let totalSuccess := (allAttempts.filter (fun a => a.success.truthy)).length
  { totalSessions := st.sessions.length
    totalAttempts := totalAttempts
    totalSuccess := totalSuccess
    overallSuccessRate :=
      if totalAttempts > 0 then .rstr (toFixed1 (totalSuccess * 100) totalAttempts)
      else .rnum 0 }

/-- `ClimbController.startNewSession`: calls the model and then saves the
draft; a thrown validation error is surfaced as an alert, leaving the state
unchanged. -/
def ctrlStartSession (now : Nat) (d : SessionData) (st : ClimbState) : ClimbState :=
  match startNewSession now d st with
  | .ok (_, st') => (saveDraft st').2
  | .error _ => st

/-- `ClimbController.logAttempt`'s model effect: add the attempt (which saves
the draft) and save the draft once more; errors are alerted, state kept. -/
def ctrlAddAttempt (now : Nat) (d : AttemptData) (st : ClimbState) : ClimbState :=
  match addAttemptToCurrentSession now d st with
  | .ok (_, st') => (saveDraft st').2
  | .error _ => st

/-- Controller-level attempt edit: `ClimbModel.updateAttempt` with errors
alerted and the state kept. -/
def ctrlUpdateAttempt (sid aid : Nat) (p : AttemptPatch) (st : ClimbState) : ClimbState :=
  match updateAttempt sid aid p st with
  | .ok (_, st') => st'
  | .error _ => st

/-- Controller-level attempt removal: `ClimbModel.deleteAttempt` with errors
alerted and the state kept. -/
def ctrlDeleteAttempt (sid aid : Nat) (st : ClimbState) : ClimbState :=
  match deleteAttempt sid aid st with
  | .ok (_, st') => st'
  | .error _ => st

/-- `ClimbController.finishSession`: `ClimbModel.finishCurrentSession` with
errors alerted and the state kept. -/
def ctrlFinishSession (st : ClimbState) : ClimbState :=
  match finishCurrentSession st with
  | .ok (_, st') => st'
  | .error _ => st

/-- `ClimbController.clearSession` (once confirmed): delete the draft and null
the open-session reference. -/
def ctrlClearSession (st : ClimbState) : ClimbState :=
  { deleteDraft st with currentSession := none }

/-- One user-level operation on the session store. -/
inductive Op where
  | start (now : Nat) (d : SessionData)
  | add (now : Nat) (d : AttemptData)
  | update (sid aid : Nat) (p : AttemptPatch)
  | del (sid aid : Nat)
  | finish
  | clear
deriving Repr

/-- Apply one operation. -/
def stepOp : Op → ClimbState → ClimbState
  | .start now d, st => ctrlStartSession now d st
  | .add now d, st => ctrlAddAttempt now d st
  | .update sid aid p, st => ctrlUpdateAttempt sid aid p st
  | .del sid aid, st => ctrlDeleteAttempt sid aid st
  | .finish, st => ctrlFinishSession st
  | .clear, st => ctrlClearSession st

/-- Run a sequence of operations. -/
def runOps (ops : List Op) (st : ClimbState) : ClimbState :=
  ops.foldl (fun s o => stepOp o s) st

/-- The draft invariant: the record keyed `"current"` exists in the drafts
store exactly when a session is open. -/
def draftInv (st : ClimbState) : Prop :=
  st.draftStore.isSome = st.currentSession.isSome

/-- The decimal digit character for `d % 10`. -/
def digitChar (d : Nat) : Char :=
  Char.ofNat (48 + d % 10)

/-- The value of a decimal digit character. -/
def digitVal (c : Char) : Nat :=
  c.toNat - 48

/-- Little-endian decimal digits of a number (empty for zero); the first
argument is structural fuel, always sufficient when it is at least `n`. -/
def natDigitsRevAux : Nat → Nat → List Char
  | 0, _ => []
  | _ + 1, 0 => []
  | fuel + 1, n + 1 => digitChar ((n + 1) % 10) :: natDigitsRevAux fuel ((n + 1) / 10)

/-- Little-endian decimal digits of a number (empty for zero). -/
def natDigitsRev (n : Nat) : List Char :=
  natDigitsRevAux n n

/-- Serialization of a `Date` to its string form (`JSON.stringify` runs
`Date.prototype.toJSON`), modelled at millisecond precision. -/
def encodeDate (t : Nat) : String :=
  ⟨(natDigitsRev t).reverse⟩

/-- Accumulating decimal parse. -/
def decodeDigits : List Char → Nat → Nat
  | [], acc => acc
  | c :: cs, acc => decodeDigits cs (acc * 10 + digitVal c)

/-- `new Date(s)` on a serialized date string: recovers the millisecond
count. -/
def decodeDate (s : String) : Nat :=
  decodeDigits s.data 0

/-- The round trip `JSON.parse(JSON.stringify(v))` on a field value: a `Date`
comes back as its serialized string; everything else supported here comes back
unchanged. -/
def jsonRT : JSVal → JSVal
  | .vDate t => .vStr (encodeDate t)
  | .vRoute n c created => .vRoute n c (jsonRT created)
  | v => v

/-- A value that survives the JSON round trip unchanged. -/
def jsonStable (v : JSVal) : Prop :=
  jsonRT v = v

/-- An attempt as it appears in the parsed backup document: the `timestamp`
has become a string, the other fields went through the JSON round trip. -/
structure AttemptJSON where
  id : Nat
  timestamp : String
  routeId : JSVal
  route : JSVal
  success : JSVal
  notes : JSVal
deriving Repr, DecidableEq

/-- A session as it appears in the parsed backup document. -/
structure SessionJSON where
  id : Nat
  date : String
  gym : JSVal
  attempts : List AttemptJSON
deriving Repr, DecidableEq

/-- The backup document `{ version, timestamp, sessions, currentSession }`
produced by `exportData`, modelled by the parse tree of the JSON text. -/
structure ExportDoc where
  version : Nat
  timestamp : String
  sessions : List SessionJSON
  currentSession : Option SessionJSON
deriving Repr, DecidableEq

/-- `JSON.stringify` on one attempt. -/
def serializeAttempt (a : Attempt) : AttemptJSON :=
  { id := a.id
    timestamp := encodeDate a.timestamp
    routeId := jsonRT a.routeId
    route := jsonRT a.route
    success := jsonRT a.success
    notes := jsonRT a.notes }

/-- `JSON.stringify` on one session. -/
def serializeSession (s : Session) : SessionJSON :=
  { id := s.id
    date := encodeDate s.date
    gym := jsonRT s.gym
    attempts := s.attempts.map serializeAttempt }

/-- `ClimbModel.exportData`, with the produced JSON text modelled by its parse
tree. -/
def exportData (now : Nat) (st : ClimbState) : ExportDoc :=
  { version := 2
    timestamp := encodeDate now
    sessions := st.sessions.map serializeSession
    currentSession := st.currentSession.map serializeSession }

/-- `importData`'s per-attempt reconstruction: `new Date(attempt.timestamp)`;
no other field is touched. -/
def deserializeAttempt (a : AttemptJSON) : Attempt :=
  { id := a.id
    timestamp := decodeDate a.timestamp
    routeId := a.routeId
    route := a.route
    success := a.success
    notes := a.notes }

/-- `importData`'s per-session reconstruction: `new Date(session.date)` plus
the per-attempt reconstruction. -/
def deserializeSession (s : SessionJSON) : Session :=
  { id := s.id
    date := decodeDate s.date
    gym := s.gym
    attempts := s.attempts.map deserializeAttempt }

/-- `ClimbModel.importData` on a parsed backup document: replaces the history
(an array is always truthy) and persists it; replaces the open session and
saves the draft only when `currentSession` is non-null. -/
def importData (doc : ExportDoc) (st : ClimbState) : ClimbState :=
  let st1 := saveSessions { st with sessions := doc.sessions.map deserializeSession }
  match doc.currentSession with
  | none => st1
  | some cj =>
    (saveDraft { st1 with currentSession := some (deserializeSession cj) }).2

/-- A stored route record of the `RouteModel`. -/
structure Route where
  id : Nat
  name : String
  color : String
  gym : String
  notes : String
  createdAt : Nat
deriving Repr, DecidableEq

/-- `RouteModel.deleteRoute`: an IndexedDB `delete(id)` request succeeds
whether or not a record with that key exists, so the promise always resolves
`true`; the record keyed `id`, if any, is removed. -/
def deleteRoute (id : Nat) (db : List Route) : Bool × List Route :=
  (true, db.filter (fun r => !(r.id == id)))

/-- Whether the route store holds a record keyed `id`. -/
def routeExists (id : Nat) (db : List Route) : Bool :=
  db.any (fun r => r.id == id)

/-- The parse outcome of a string-serialized legacy record: a legacy
localStorage value is modelled by what `JSON.parse` makes of it. -/
inductive Serialized (α : Type) where
  | good (val : α)
  | corrupt
deriving Repr, DecidableEq

/-- The two legacy localStorage keys read by the migration. -/
structure LegacyStorage where
  climbingSessions : Option (Serialized (List Session))
  climbingSessionDraft : Option (Serialized Session)
deriving Repr, DecidableEq

/-- The IndexedDB state touched by the migration. -/
structure MigrationDB where
  sessions : List Session
  draft : Option Session
deriving Repr, DecidableEq

/-- `store.add(session)` on the keyed sessions store: rejects with a
constraint error when a record with the same key already exists. -/
def dbAddSession (db : MigrationDB) (s : Session) : Except String MigrationDB :=
  if db.sessions.any (fun t => t.id == s.id) then .error "ConstraintError"
  else .ok { db with sessions := db.sessions ++ [s] }

/-- Add the parsed legacy sessions one at a time. -/
def dbAddSessions (db : MigrationDB) : List Session → Except String MigrationDB
  | [] => .ok db
  | s :: rest =>
    match dbAddSession db s with
    | .error e => .error e
    | .ok db' => dbAddSessions db' rest

/-- The body of `migrateFromLocalStorage` without its `try`/`catch`: an
`error` result is a thrown exception, carrying the state observable at the
point of the throw (a failed `add` aborts its transaction, rolling the
sessions store back; a `JSON.parse` failure happens before any write). -/
def migrateInner (ls : LegacyStorage) (db : MigrationDB) :
    Except (LegacyStorage × MigrationDB) (LegacyStorage × MigrationDB) :=
  let draftPhase : LegacyStorage → MigrationDB →
      Except (LegacyStorage × MigrationDB) (LegacyStorage × MigrationDB) :=
    fun ls' db' =>
      match ls'.climbingSessionDraft with
      | none => .ok (ls', db')
      | some .corrupt => .error (ls', db')
      | some (.good draft) =>
        .ok ({ ls' with climbingSessionDraft := none }, { db' with draft := some draft })
  match ls.climbingSessions with
  | none => draftPhase ls db
  | some .corrupt => .error (ls, db)
  | some (.good sessions) =>
    match dbAddSessions db sessions with
    | .error _ => .error (ls, db)
    | .ok db' => draftPhase { ls with climbingSessions := none } db'

/-- `ClimbModel.migrateFromLocalStorage`: the whole body is wrapped in
`try`/`catch`, the catch only logs, so the caller always gets a normal
return. -/
def migrateFromLocalStorage (ls : LegacyStorage) (db : MigrationDB) :
    LegacyStorage × MigrationDB :=
  match migrateInner ls db with
  | .ok r => r
  | .error r => r

/-- The attempt `updateAttempt`/`deleteAttempt` would target: the session is
looked up in history first, falling back to the current session when the ids
match, then the attempt is looked up by id. -/
def findAttempt (st : ClimbState) (sessionId attemptId : Nat) : Option Attempt :=
  match st.sessions.find? (fun s => s.id == sessionId) with
  | some s => s.attempts.find? (fun a => a.id == attemptId)
  | none =>
    match st.currentSession with
    | some c =>
      if c.id == sessionId then c.attempts.find? (fun a => a.id == attemptId)
      else none
    | none => none

/-- All dynamic fields of an attempt survive the JSON round trip (no embedded
`Date` values, such as a route snapshot's `createdAt`). -/
def attemptStable (a : Attempt) : Prop :=
  jsonRT a.routeId = a.routeId ∧ jsonRT a.route = a.route ∧
    jsonRT a.success = a.success ∧ jsonRT a.notes = a.notes

/-- A session whose `gym` and all attempt fields survive the JSON round
trip. -/
def sessionStable (s : Session) : Prop :=
  jsonRT s.gym = s.gym ∧ ∀ a ∈ s.attempts, attemptStable a

instance (a : Attempt) : Decidable (attemptStable a) := by
  unfold attemptStable
  infer_instance

instance (s : Session) : Decidable (sessionStable s) := by
  unfold sessionStable
  infer_instance

/-- A route snapshot value as the controller embeds into attempts. -/
def rtSnap : JSVal := .vRoute "R1" "red" .vNull

/-- A sample attempt. -/
def attEx : Attempt := ⟨10, 20, .vNum 7, rtSnap, .vBool true, .vNull⟩

/-- A sample closed session holding `attEx`. -/
def sesEx : Session := ⟨1, 100, .vStr "Gym", [attEx]⟩

/-- A store whose history holds exactly `sesEx`. -/
def stHist : ClimbState := ⟨[sesEx], none, none, [sesEx]⟩

/-- A sample open session with no attempts yet. -/
def sesOpen : Session := ⟨2, 200, .vStr "Gym", []⟩

/-- A store with an open session. -/
def stOpen : ClimbState := ⟨[], some sesOpen, none, []⟩

/-- A patch that only supplies `routeId`. -/
def pRid : AttemptPatch := { routeId := some (.vNum 42) }

/-- Attempt data whose `success` is the number `1`, not a boolean. -/
def dNonBool : AttemptData := { routeId := .vNum 3, route := rtSnap, success := .vNum 1 }

/-- An attempt whose route snapshot carries a `Date`-valued `createdAt`. -/
def attDated : Attempt := ⟨10, 20, .vNum 7, .vRoute "R1" "red" (.vDate 5), .vBool true, .vNull⟩

/-- A store whose one history session holds `attDated`. -/
def stDated : ClimbState :=
  ⟨[⟨1, 100, .vStr "Gym", [attDated]⟩], none, none, [⟨1, 100, .vStr "Gym", [attDated]⟩]⟩

/-- Start a session, log one attempt, finish, then delete that attempt from
the closed session: reaches a history containing an attempt-less session. -/
def opsEmptySession : List Op :=
  [.start 1 ⟨.vDate 100, .vStr "Gym"⟩,
   .add 2 { routeId := .vNum 7, route := rtSnap, success := .vBool true },
   .finish,
   .del 1 2]

/-- Start a session, log one successful and one failed attempt, finish. -/
def opsTwoAttempts : List Op :=
  [.start 1 ⟨.vDate 100, .vStr "Gym"⟩,
   .add 2 { routeId := .vNum 7, route := rtSnap, success := .vBool true },
   .add 3 { routeId := .vNum 8, route := rtSnap, success := .vBool false },
   .finish]

/-- A sample open session already holding one attempt. -/
def sesOpenAtt : Session := ⟨2, 200, .vStr "Gym", [attEx]⟩

/-- A store with an open one-attempt session mirrored by the draft. -/
def stOpenAtt : ClimbState := ⟨[], some sesOpenAtt, some sesOpenAtt, []⟩

/-- Well-formed attempt data as the controller builds it. -/
def dGood : AttemptData := { routeId := .vNum 7, route := rtSnap, success := .vBool true }

/-- A patch exercising the intended route-and-result edit. -/
def pEx : AttemptPatch := { route := some (.vRoute "R2" "blue" .vNull), success := some (.vBool false) }

/-- The state `deleteAttempt` produces on its history path: the first session
with the matching id has the first matching attempt spliced out, and the
history is persisted. -/
def historyDeleteState (sessionId attemptId : Nat) (st : ClimbState) : ClimbState :=
  let sessions' := updateFirst (fun t => t.id == sessionId)
    (fun ses => { ses with
      attempts := removeFirst (fun x => x.id == attemptId) ses.attempts })
    st.sessions
  saveSessions { st with sessions := sessions' }

/-- A sample stored route. -/
def rtA : Route := ⟨1, "Crimpy", "red", "Gym", "", 50⟩

/-- Another sample stored route. -/
def rtB : Route := ⟨2, "Slopey", "green", "Gym", "", 60⟩

theorem digitVal_digitChar (d : Nat) : digitVal (digitChar d) = d % 10 := by
  have h : d % 10 < 10 := Nat.mod_lt _ (by omega)
  unfold digitChar
  set e := d % 10 with he
  interval_cases e <;> decide

theorem decodeDigits_append (l₁ l₂ : List Char) (acc : Nat) :
    decodeDigits (l₁ ++ l₂) acc = decodeDigits l₂ (decodeDigits l₁ acc) := by
  induction l₁ generalizing acc with
  | nil => rfl
  | cons c cs ih => simp [decodeDigits, ih]

theorem decode_encode_aux : ∀ fuel n acc, n ≤ fuel →
    decodeDigits (natDigitsRevAux fuel n).reverse acc =
      acc * 10 ^ (natDigitsRevAux fuel n).length + n := by
  intro fuel
  induction fuel with
  | zero =>
    intro n acc hn
    have hn0 : n = 0 := Nat.le_zero.mp hn
    subst hn0
    simp [natDigitsRevAux, decodeDigits]
  | succ fuel ih =>
    intro n acc hn
    match n with
    | 0 => simp [natDigitsRevAux, decodeDigits]
    | m + 1 =>
      have hdiv : (m + 1) / 10 < m + 1 := Nat.div_lt_self (Nat.succ_pos m) (by omega)
      have hle : (m + 1) / 10 ≤ fuel := by omega
      simp only [natDigitsRevAux]
      rw [List.reverse_cons, decodeDigits_append, ih _ _ hle]
      simp only [decodeDigits, List.length_cons, digitVal_digitChar]
      rw [pow_succ, ← mul_assoc]
      generalize acc * 10 ^ (natDigitsRevAux fuel ((m + 1) / 10)).length = k
      omega

theorem decodeDate_encodeDate (t : Nat) : decodeDate (encodeDate t) = t := by
  have h := decode_encode_aux t t 0 (le_refl t)
  simpa [decodeDate, encodeDate, natDigitsRev] using h

theorem saveDraft_snd_sessions (st : ClimbState) :
    (saveDraft st).2.sessions = st.sessions := by
  cases h : st.currentSession <;> simp [saveDraft, h]

theorem saveDraft_snd_current (st : ClimbState) :
    (saveDraft st).2.currentSession = st.currentSession := by
  cases h : st.currentSession <;> simp [saveDraft, h]

theorem saveDraft_of_some (st : ClimbState) (c : Session)
    (h : st.currentSession = some c) :
    (saveDraft st).2 = { st with draftStore := some c } := by
  simp [saveDraft, h]

theorem addAttempt_ok_state (now : Nat) (d : AttemptData) (st : ClimbState)
    (a : Attempt) (st' : ClimbState)
    (h : addAttemptToCurrentSession now d st = .ok (a, st')) :
    ∃ c', st'.currentSession = some c' ∧ st'.draftStore = some c' ∧
      st'.sessions = st.sessions ∧ st'.sessionsStore = st.sessionsStore := by
  unfold addAttemptToCurrentSession at h
  split at h
  · exact absurd h (by simp)
  · split at h
    · exact absurd h (by simp)
    · simp only [Except.ok.injEq, Prod.mk.injEq] at h
      obtain ⟨-, hst⟩ := h
      subst hst
      exact ⟨_, rfl, rfl, rfl, rfl⟩

theorem updateInCurrent_ok_state (aid : Nat) (p : AttemptPatch) (st : ClimbState)
    (a : Attempt) (st' : ClimbState)
    (h : updateAttemptInCurrentSession aid p st = .ok (a, st')) :
    ∃ c', st'.currentSession = some c' ∧ st'.draftStore = some c' ∧
      st'.sessions = st.sessions ∧ st'.sessionsStore = st.sessionsStore := by
  unfold updateAttemptInCurrentSession at h
  split at h
  · exact absurd h (by simp)
  · split at h
    · exact absurd h (by simp)
    · split at h
      · exact absurd h (by simp)
      · simp only [Except.ok.injEq, Prod.mk.injEq] at h
        obtain ⟨-, hst⟩ := h
        subst hst
        exact ⟨_, rfl, rfl, rfl, rfl⟩

theorem deleteFromCurrent_ok_state (aid : Nat) (st : ClimbState)
    (a : Attempt) (st' : ClimbState)
    (h : deleteAttemptFromCurrentSession aid st = .ok (a, st')) :
    ∃ c', st'.currentSession = some c' ∧ st'.draftStore = some c' ∧
      st'.sessions = st.sessions ∧ st'.sessionsStore = st.sessionsStore := by
  unfold deleteAttemptFromCurrentSession at h
  split at h
  · exact absurd h (by simp)
  · split at h
    · exact absurd h (by simp)
    · simp only [Except.ok.injEq, Prod.mk.injEq] at h
      obtain ⟨-, hst⟩ := h
      subst hst
      exact ⟨_, rfl, rfl, rfl, rfl⟩

theorem updateAttempt_ok_state (sid aid : Nat) (p : AttemptPatch) (st : ClimbState)
    (a : Attempt) (st' : ClimbState)
    (h : updateAttempt sid aid p st = .ok (a, st')) :
    (st'.currentSession = st.currentSession ∧ st'.draftStore = st.draftStore) ∨
      ∃ c', st'.currentSession = some c' ∧ st'.draftStore = some c' := by
  unfold updateAttempt at h
  split at h
  · split at h
    · split at h
      · obtain ⟨c', h1, h2, -, -⟩ := updateInCurrent_ok_state aid p st a st' h
        exact Or.inr ⟨c', h1, h2⟩
      · exact absurd h (by simp)
    · exact absurd h (by simp)
  · split at h
    · exact absurd h (by simp)
    · split at h
      · exact absurd h (by simp)
      · simp only [Except.ok.injEq, Prod.mk.injEq] at h
        obtain ⟨-, hst⟩ := h
        subst hst
        exact Or.inl ⟨by simp [saveSessions], by simp [saveSessions]⟩

theorem deleteAttempt_ok_state (sid aid : Nat) (st : ClimbState)
    (a : Attempt) (st' : ClimbState)
    (h : deleteAttempt sid aid st = .ok (a, st')) :
    (st'.currentSession = st.currentSession ∧ st'.draftStore = st.draftStore) ∨
      ∃ c', st'.currentSession = some c' ∧ st'.draftStore = some c' := by
  unfold deleteAttempt at h
  split at h
  · split at h
    · split at h
      · obtain ⟨c', h1, h2, -, -⟩ := deleteFromCurrent_ok_state aid st a st' h
        exact Or.inr ⟨c', h1, h2⟩
      · exact absurd h (by simp)
    · exact absurd h (by simp)
  · split at h
    · exact absurd h (by simp)
    · simp only [Except.ok.injEq, Prod.mk.injEq] at h
      obtain ⟨-, hst⟩ := h
      subst hst
      exact Or.inl ⟨by simp [saveSessions], by simp [saveSessions]⟩

theorem finish_ok_state (st : ClimbState) (s : Session) (st' : ClimbState)
    (h : finishCurrentSession st = .ok (s, st')) :
    st'.currentSession = none ∧ st'.draftStore = none := by
  unfold finishCurrentSession at h
  split at h
  · exact absurd h (by simp)
  · split at h
    · exact absurd h (by simp)
    · simp only [Except.ok.injEq, Prod.mk.injEq] at h
      obtain ⟨-, hst⟩ := h
      subst hst
      exact ⟨by simp [saveSessions, deleteDraft], by simp [saveSessions, deleteDraft]⟩

theorem startNewSession_ok_state (now : Nat) (d : SessionData) (st : ClimbState)
    (s : Session) (st' : ClimbState)
    (h : startNewSession now d st = .ok (s, st')) :
    st'.currentSession = some s ∧ st'.sessions = st.sessions ∧
      st'.draftStore = st.draftStore ∧ st'.sessionsStore = st.sessionsStore := by
  unfold startNewSession at h
  split at h
  · exact absurd h (by simp)
  · simp only [Except.ok.injEq, Prod.mk.injEq] at h
    obtain ⟨hs, hst⟩ := h
    subst hs
    subst hst
    exact ⟨rfl, rfl, rfl, rfl⟩

theorem stepOp_inv (op : Op) (st : ClimbState) (h : draftInv st) :
    draftInv (stepOp op st) := by
  cases op with
  | start now d =>
    show draftInv (ctrlStartSession now d st)
    unfold ctrlStartSession
    cases hr : startNewSession now d st with
    | error e => exact h
    | ok res =>
      obtain ⟨s, st'⟩ := res
      obtain ⟨hcur, -, -, -⟩ := startNewSession_ok_state now d st s st' hr
      show draftInv (saveDraft st').2
      unfold draftInv
      rw [saveDraft_of_some st' s hcur]
      simp [hcur]
  | add now d =>
    show draftInv (ctrlAddAttempt now d st)
    unfold ctrlAddAttempt
    cases hr : addAttemptToCurrentSession now d st with
    | error e => exact h
    | ok res =>
      obtain ⟨a, st'⟩ := res
      obtain ⟨c', h1, h2, -, -⟩ := addAttempt_ok_state now d st a st' hr
      show draftInv (saveDraft st').2
      unfold draftInv
      rw [saveDraft_of_some st' c' h1]
      simp [h1]
  | update sid aid p =>
    show draftInv (ctrlUpdateAttempt sid aid p st)
    unfold ctrlUpdateAttempt
    cases hr : updateAttempt sid aid p st with
    | error e => exact h
    | ok res =>
      obtain ⟨a, st'⟩ := res
      rcases updateAttempt_ok_state sid aid p st a st' hr with ⟨h1, h2⟩ | ⟨c', h1, h2⟩
      · unfold draftInv at h ⊢
        rw [h1, h2]
        exact h
      · unfold draftInv
        simp [h1, h2]
  | del sid aid =>
    show draftInv (ctrlDeleteAttempt sid aid st)
    unfold ctrlDeleteAttempt
    cases hr : deleteAttempt sid aid st with
    | error e => exact h
    | ok res =>
      obtain ⟨a, st'⟩ := res
      rcases deleteAttempt_ok_state sid aid st a st' hr with ⟨h1, h2⟩ | ⟨c', h1, h2⟩
      · unfold draftInv at h ⊢
        rw [h1, h2]
        exact h
      · unfold draftInv
        simp [h1, h2]
  | finish =>
    show draftInv (ctrlFinishSession st)
    unfold ctrlFinishSession
    cases hr : finishCurrentSession st with
    | error e => exact h
    | ok res =>
      obtain ⟨s, st'⟩ := res
      obtain ⟨h1, h2⟩ := finish_ok_state st s st' hr
      unfold draftInv
      simp [h1, h2]
  | clear =>
    show draftInv (ctrlClearSession st)
    unfold draftInv ctrlClearSession deleteDraft
    simp

theorem runOps_inv (ops : List Op) (st : ClimbState) (h : draftInv st) :
    draftInv (runOps ops st) := by
  induction ops generalizing st with
  | nil => exact h
  | cons op rest ih => exact ih (stepOp op st) (stepOp_inv op st h)

theorem updateFirst_length (pred : α → Bool) (f : α → α) (l : List α) :
    (updateFirst pred f l).length = l.length := by
  induction l with
  | nil => rfl
  | cons x xs ih =>
    by_cases hp : pred x
    · simp [updateFirst, hp]
    · simp [updateFirst, hp, ih]

theorem find?_updateFirst (pred : α → Bool) (f : α → α) (l : List α) (a : α)
    (h : l.find? pred = some a) (hf : pred (f a) = true) :
    (updateFirst pred f l).find? pred = some (f a) := by
  induction l with
  | nil => simp at h
  | cons x xs ih =>
    by_cases hp : pred x
    · rw [List.find?_cons_of_pos _ hp] at h
      injection h with h
      subst h
      simp [updateFirst, hp, List.find?_cons_of_pos _ hf]
    · rw [List.find?_cons_of_neg _ (by simpa using hp)] at h
      simp only [updateFirst, if_neg hp]
      rw [List.find?_cons_of_neg _ (by simpa using hp)]
      exact ih h

theorem removeFirst_length (pred : α → Bool) (l : List α) (a : α)
    (h : l.find? pred = some a) :
    (removeFirst pred l).length + 1 = l.length := by
  induction l with
  | nil => simp at h
  | cons x xs ih =>
    by_cases hp : pred x
    · simp [removeFirst, hp]
    · rw [List.find?_cons_of_neg _ (by simpa using hp)] at h
      simp only [removeFirst, if_neg hp, List.length_cons]
      rw [ih h]

theorem deserialize_serialize_attempt (a : Attempt) (h : attemptStable a) :
    deserializeAttempt (serializeAttempt a) = a := by
  obtain ⟨h1, h2, h3, h4⟩ := h
  unfold serializeAttempt deserializeAttempt
  simp only
  rw [decodeDate_encodeDate, h1, h2, h3, h4]

theorem map_deserialize_serialize_attempts (l : List Attempt)
    (h : ∀ a ∈ l, attemptStable a) :
    (l.map serializeAttempt).map deserializeAttempt = l := by
  induction l with
  | nil => rfl
  | cons a rest ih =>
    simp only [List.map_cons]
    rw [deserialize_serialize_attempt a (h a (by simp)),
      ih (fun x hx => h x (by simp [hx]))]

theorem deserialize_serialize_session (s : Session) (h : sessionStable s) :
    deserializeSession (serializeSession s) = s := by
  obtain ⟨hg, ha⟩ := h
  unfold serializeSession deserializeSession
  simp only
  rw [decodeDate_encodeDate, hg, map_deserialize_serialize_attempts s.attempts ha]

theorem map_deserialize_serialize_sessions (l : List Session)
    (h : ∀ s ∈ l, sessionStable s) :
    (l.map serializeSession).map deserializeSession = l := by
  induction l with
  | nil => rfl
  | cons s rest ih =>
    simp only [List.map_cons]
    rw [deserialize_serialize_session s (h s (by simp)),
      ih (fun x hx => h x (by simp [hx]))]

/-- C1: `finishSession` (`finishCurrentSession`) fails when no session is open
or the open session has zero attempts; otherwise it succeeds, appends the open
session to the history list, clears the open-session reference, and deletes
the draft record keyed `"current"`, persisting the history. -/
theorem finishSession_contract (st : ClimbState) :
    (st.currentSession = none →
       finishCurrentSession st = .error "No session to finish or no attempts logged") ∧
    (∀ c, st.currentSession = some c → c.attempts = [] →
       finishCurrentSession st = .error "No session to finish or no attempts logged") ∧
    (∀ c, st.currentSession = some c → c.attempts ≠ [] →
       finishCurrentSession st =
         .ok (c, { sessions := st.sessions ++ [c], currentSession := none,
                   draftStore := none, sessionsStore := st.sessions ++ [c] })) := by
  refine ⟨?_, ?_, ?_⟩
  · intro h
    unfold finishCurrentSession
    rw [h]
  · intro c hc he
    unfold finishCurrentSession
    rw [hc]
    simp [he]
  · intro c hc hne
    unfold finishCurrentSession
    rw [hc]
    have hE : c.attempts.isEmpty = false := by simpa using hne
    simp [hE, saveSessions, deleteDraft]

/-- Witness for C1: finishing an open one-attempt session succeeds, moves it
to history, clears the open session and deletes the draft. -/
theorem finishSession_contract_witness :
    finishCurrentSession stOpenAtt =
      .ok (sesOpenAtt, { sessions := [sesOpenAtt], currentSession := none,
                         draftStore := none, sessionsStore := [sesOpenAtt] }) :=
  (finishSession_contract stOpenAtt).2.2 sesOpenAtt rfl (by decide)

/-- Counterexample for C2: `startNewSession` called on a store with an open
session does not fail; it succeeds and silently replaces the open session. -/
theorem startSession_open_cex :
    stOpen.currentSession.isSome = true ∧
      startNewSession 5 ⟨.vDate 7, .vStr "GymB"⟩ stOpen =
        .ok (⟨5, 7, .vStr "GymB", []⟩,
             { stOpen with currentSession := some ⟨5, 7, .vStr "GymB", []⟩ }) :=
  ⟨rfl, rfl⟩

/-- C2 (amended): `startNewSession` throws exactly when the supplied date or
gym is falsy (empty/missing); it performs no open-session check, so on valid
input it always succeeds, replacing any open session in place. -/
theorem startSession_contract (now : Nat) (d : SessionData) (st : ClimbState) :
    (d.date.truthy = false ∨ d.gym.truthy = false →
       startNewSession now d st = .error "Session date and gym/location are required") ∧
    (d.date.truthy = true → d.gym.truthy = true →
       startNewSession now d st =
         .ok (⟨now, jsNewDate d.date, d.gym, []⟩,
              { st with currentSession := some ⟨now, jsNewDate d.date, d.gym, []⟩ })) := by
  constructor
  · intro h
    rcases h with h | h <;> simp [startNewSession, h]
  · intro h1 h2
    simp [startNewSession, h1, h2]

/-- Witness for C2: starting a session with valid data on a fresh store
succeeds. -/
theorem startSession_contract_witness :
    startNewSession 9 ⟨.vDate 42, .vStr "GymC"⟩ initState =
      .ok (⟨9, 42, .vStr "GymC", []⟩,
           { initState with currentSession := some ⟨9, 42, .vStr "GymC", []⟩ }) :=
  (startSession_contract 9 ⟨.vDate 42, .vStr "GymC"⟩ initState).2 rfl (by decide)

/-- C3: over every state reachable by the user-level operations (start, add,
update, delete, finish, clear) from a fresh store, the draft record keyed
`"current"` exists exactly when a session is open; every successful attempt
add/edit/delete on the open session leaves the draft mirroring it, and
finish/clear delete the draft. -/
theorem draft_mirror_contract :
    (∀ ops : List Op, draftInv (runOps ops initState)) ∧
    (∀ now d st a st', addAttemptToCurrentSession now d st = .ok (a, st') →
       st'.draftStore = st'.currentSession) ∧
    (∀ aid p st a st', updateAttemptInCurrentSession aid p st = .ok (a, st') →
       st'.draftStore = st'.currentSession) ∧
    (∀ aid st a st', deleteAttemptFromCurrentSession aid st = .ok (a, st') →
       st'.draftStore = st'.currentSession) ∧
    (∀ st s st', finishCurrentSession st = .ok (s, st') →
       st'.draftStore = none ∧ st'.currentSession = none) ∧
    (∀ st, (ctrlClearSession st).draftStore = none ∧
       (ctrlClearSession st).currentSession = none) := by
  refine ⟨?_, ?_, ?_, ?_, ?_, ?_⟩
  · intro ops
    exact runOps_inv ops initState rfl
  · intro now d st a st' h
    obtain ⟨c', h1, h2, -, -⟩ := addAttempt_ok_state now d st a st' h
    rw [h1, h2]
  · intro aid p st a st' h
    obtain ⟨c', h1, h2, -, -⟩ := updateInCurrent_ok_state aid p st a st' h
    rw [h1, h2]
  · intro aid st a st' h
    obtain ⟨c', h1, h2, -, -⟩ := deleteFromCurrent_ok_state aid st a st' h
    rw [h1, h2]
  · intro st s st' h
    exact ⟨(finish_ok_state st s st' h).2, (finish_ok_state st s st' h).1⟩
  · intro st
    exact ⟨rfl, rfl⟩

/-- Witness for C3: a concrete run (start, two adds, finish) satisfies the
draft invariant, and adding an attempt to an open session leaves the draft
mirroring the updated session. -/
theorem draft_mirror_contract_witness :
    draftInv (runOps opsTwoAttempts initState) ∧
    ((saveDraft { stOpen with currentSession := some { sesOpen with attempts :=
        [⟨7, 7, .vNum 7, rtSnap, .vBool true, .vNull⟩] } }).2.draftStore =
      (saveDraft { stOpen with currentSession := some { sesOpen with attempts :=
        [⟨7, 7, .vNum 7, rtSnap, .vBool true, .vNull⟩] } }).2.currentSession) ∧
    (ctrlClearSession stOpenAtt).draftStore = none :=
  ⟨draft_mirror_contract.1 opsTwoAttempts,
   draft_mirror_contract.2.1 7 dGood stOpen
     ⟨7, 7, .vNum 7, rtSnap, .vBool true, .vNull⟩ _ rfl,
   (draft_mirror_contract.2.2.2.2.2 stOpenAtt).1⟩

/-- Counterexample for C4: an attempt whose `success` is the number `1` — not
a boolean — is accepted, because the code only rejects `null`/`undefined`. -/
theorem addAttempt_nonbool_cex :
    dNonBool.success.isBool = false ∧
      addAttemptToCurrentSession 7 dNonBool stOpen =
        .ok (⟨7, 7, .vNum 3, rtSnap, .vNum 1, .vNull⟩,
             { stOpen with
                 currentSession := some { sesOpen with
                   attempts := [⟨7, 7, .vNum 3, rtSnap, .vNum 1, .vNull⟩] },
                 draftStore := some { sesOpen with
                   attempts := [⟨7, 7, .vNum 3, rtSnap, .vNum 1, .vNull⟩] } }) :=
  ⟨rfl, rfl⟩

/-- C4 (amended): `addAttemptToCurrentSession` fails exactly when no session
is open (message exactly "No active session"), the route is falsy/absent, or
`success` is `null`/`undefined`; any other `success` value (booleans or not)
is accepted, appending exactly one attempt and persisting the draft. -/
theorem addAttempt_contract (now : Nat) (d : AttemptData) (st : ClimbState) :
    (st.currentSession = none →
       addAttemptToCurrentSession now d st = .error "No active session") ∧
    (∀ c, st.currentSession = some c →
       (d.route.truthy = false ∨ d.success.isNullish = true) →
       addAttemptToCurrentSession now d st = .error "Route and result are required") ∧
    (∀ c, st.currentSession = some c → d.route.truthy = true →
       d.success.isNullish = false →
       addAttemptToCurrentSession now d st =
         .ok (⟨now, now, d.routeId, d.route, d.success,
               if d.notes.truthy then d.notes else .vNull⟩,
              { st with
                  currentSession := some { c with attempts :=
                    c.attempts ++ [⟨now, now, d.routeId, d.route, d.success,
                      if d.notes.truthy then d.notes else .vNull⟩] },
                  draftStore := some { c with attempts :=
                    c.attempts ++ [⟨now, now, d.routeId, d.route, d.success,
                      if d.notes.truthy then d.notes else .vNull⟩] } })) := by
  refine ⟨?_, ?_, ?_⟩
  · intro h
    unfold addAttemptToCurrentSession
    rw [h]
  · intro c hc hv
    unfold addAttemptToCurrentSession
    rw [hc]
    rcases hv with h | h <;> simp [h]
  · intro c hc h1 h2
    unfold addAttemptToCurrentSession
    rw [hc]
    simp [h1, h2, saveDraft]

/-- Witness for C4: adding a well-formed attempt to an open session appends
it and persists the draft. -/
theorem addAttempt_contract_witness :
    addAttemptToCurrentSession 7 dGood stOpen =
      .ok (⟨7, 7, .vNum 7, rtSnap, .vBool true, .vNull⟩,
           { stOpen with
               currentSession := some { sesOpen with
                 attempts := [⟨7, 7, .vNum 7, rtSnap, .vBool true, .vNull⟩] },
               draftStore := some { sesOpen with
                 attempts := [⟨7, 7, .vNum 7, rtSnap, .vBool true, .vNull⟩] } }) :=
  (addAttempt_contract 7 dGood stOpen).2.2 sesOpen rfl rfl rfl

theorem updateInCurrent_result (aid : Nat) (p : AttemptPatch) (st : ClimbState)
    (a : Attempt) (st' : ClimbState)
    (h : updateAttemptInCurrentSession aid p st = .ok (a, st')) :
    ∃ c orig, st.currentSession = some c ∧
      c.attempts.find? (fun x => x.id == aid) = some orig ∧
      orig.id = aid ∧ a = applyPatch aid orig p := by
  unfold updateAttemptInCurrentSession at h
  split at h
  · exact absurd h (by simp)
  · rename_i c hc
    split at h
    · exact absurd h (by simp)
    · rename_i orig horig
      split at h
      · exact absurd h (by simp)
      · simp only [Except.ok.injEq, Prod.mk.injEq] at h
        have hid : orig.id = aid := by simpa using List.find?_some horig
        exact ⟨c, orig, hc, horig, hid, h.1.symm⟩

theorem deleteFromCurrent_result (aid : Nat) (st : ClimbState)
    (a : Attempt) (st' : ClimbState)
    (h : deleteAttemptFromCurrentSession aid st = .ok (a, st')) :
    ∃ c, st.currentSession = some c ∧
      c.attempts.find? (fun x => x.id == aid) = some a := by
  unfold deleteAttemptFromCurrentSession at h
  split at h
  · exact absurd h (by simp)
  · rename_i c hc
    split at h
    · exact absurd h (by simp)
    · rename_i att hatt
      simp only [Except.ok.injEq, Prod.mk.injEq] at h
      exact ⟨c, hc, h.1 ▸ hatt⟩

theorem updateAttempt_result (sid aid : Nat) (p : AttemptPatch) (st : ClimbState)
    (a : Attempt) (st' : ClimbState)
    (h : updateAttempt sid aid p st = .ok (a, st')) :
    ∃ orig, findAttempt st sid aid = some orig ∧
      orig.id = aid ∧ a = applyPatch aid orig p := by
  unfold updateAttempt at h
  split at h
  · rename_i hfs
    split at h
    · rename_i c hc
      split at h
      · rename_i hid
        obtain ⟨c', orig, hc', horig, hoid, ha⟩ := updateInCurrent_result aid p st a st' h
        rw [hc] at hc'
        injection hc' with hcc
        subst hcc
        refine ⟨orig, ?_, hoid, ha⟩
        simp only [findAttempt, hfs, hc, if_pos hid]
        exact horig
      · exact absurd h (by simp)
    · exact absurd h (by simp)
  · rename_i s hfs
    split at h
    · exact absurd h (by simp)
    · rename_i orig hfa
      split at h
      · exact absurd h (by simp)
      · simp only [Except.ok.injEq, Prod.mk.injEq] at h
        have hid : orig.id = aid := by simpa using List.find?_some hfa
        refine ⟨orig, ?_, hid, h.1.symm⟩
        simp only [findAttempt, hfs]
        exact hfa

theorem deleteAttempt_result (sid aid : Nat) (st : ClimbState)
    (a : Attempt) (st' : ClimbState)
    (h : deleteAttempt sid aid st = .ok (a, st')) :
    findAttempt st sid aid = some a := by
  unfold deleteAttempt at h
  split at h
  · rename_i hfs
    split at h
    · rename_i c hc
      split at h
      · rename_i hid
        obtain ⟨c', hc', hatt⟩ := deleteFromCurrent_result aid st a st' h
        rw [hc] at hc'
        injection hc' with hcc
        subst hcc
        simp only [findAttempt, hfs, hc, if_pos hid]
        exact hatt
      · exact absurd h (by simp)
    · exact absurd h (by simp)
  · rename_i s hfs
    split at h
    · exact absurd h (by simp)
    · rename_i att hfa
      simp only [Except.ok.injEq, Prod.mk.injEq] at h
      simp only [findAttempt, hfs]
      exact h.1 ▸ hfa

/-- C5 (amended): a successful `updateAttempt` preserves the target attempt's
`id` and `timestamp` exactly and leaves every field the patch does not supply
unchanged — but any supplied field, including `routeId`, overwrites the
original (the object spread copies every patch key). A successful
`deleteAttempt` returns the target record itself, unmodified. -/
theorem attemptEdit_preserves :
    (∀ sid aid p st a st' orig,
       updateAttempt sid aid p st = .ok (a, st') →
       findAttempt st sid aid = some orig →
       a.id = orig.id ∧ a.timestamp = orig.timestamp ∧
       (p.route = none → a.route = orig.route) ∧
       (p.success = none → a.success = orig.success) ∧
       (p.notes = none → a.notes = orig.notes) ∧
       (p.routeId = none → a.routeId = orig.routeId)) ∧
    (∀ sid aid st a st',
       deleteAttempt sid aid st = .ok (a, st') →
       findAttempt st sid aid = some a) := by
  constructor
  · intro sid aid p st a st' orig h hfind
    obtain ⟨orig', h1, hoid, ha⟩ := updateAttempt_result sid aid p st a st' h
    rw [h1] at hfind
    injection hfind with he
    subst he
    subst ha
    refine ⟨by simp [applyPatch, hoid], rfl, ?_, ?_, ?_, ?_⟩
    · intro hp
      simp [applyPatch, hp]
    · intro hp
      simp [applyPatch, hp]
    · intro hp
      simp [applyPatch, hp]
    · intro hp
      simp [applyPatch, hp]
  · intro sid aid st a st' h
    exact deleteAttempt_result sid aid st a st' h

/-- Witness for C5: a route-and-result edit of the sample history attempt
keeps its id, timestamp, notes, and routeId; deleting it returns the original
record. -/
theorem attemptEdit_preserves_witness :
    (⟨10, 20, .vNum 7, .vRoute "R2" "blue" .vNull, .vBool false, .vNull⟩ : Attempt).id = attEx.id ∧
    (⟨10, 20, .vNum 7, .vRoute "R2" "blue" .vNull, .vBool false, .vNull⟩ : Attempt).timestamp = attEx.timestamp ∧
    (⟨10, 20, .vNum 7, .vRoute "R2" "blue" .vNull, .vBool false, .vNull⟩ : Attempt).notes = attEx.notes ∧
    (⟨10, 20, .vNum 7, .vRoute "R2" "blue" .vNull, .vBool false, .vNull⟩ : Attempt).routeId = attEx.routeId ∧
    findAttempt stHist 1 10 = some attEx := by
  have h := attemptEdit_preserves.1 1 10 pEx stHist
    ⟨10, 20, .vNum 7, .vRoute "R2" "blue" .vNull, .vBool false, .vNull⟩ _ attEx rfl rfl
  have h2 := attemptEdit_preserves.2 1 10 stHist attEx _ rfl
  exact ⟨h.1, h.2.1, h.2.2.2.2.1 rfl, h.2.2.2.2.2 rfl, h2⟩

/-- Counterexample for C5: a patch supplying only `routeId` changes the
attempt's `routeId` — a field the claim says may never change. -/
theorem update_routeId_cex :
    updateAttempt 1 10 pRid stHist =
      .ok ({ attEx with routeId := .vNum 42 },
           ⟨[{ sesEx with attempts := [{ attEx with routeId := .vNum 42 }] }], none, none,
            [{ sesEx with attempts := [{ attEx with routeId := .vNum 42 }] }]⟩) ∧
    ({ attEx with routeId := .vNum 42 }).routeId ≠ attEx.routeId :=
  ⟨rfl, by decide⟩

/-- C6 (amended): `getOverallStats` returns the all-zero record with the
numeric-`0` rate exactly on an empty history; whenever the history holds zero
attempts the rate is the numeric `0` while `totalSessions` still counts the
(possibly attempt-less) sessions; with at least one attempt the rate is the
string formatting of `(successes / attempts) * 100` to one decimal place, and
the spec's example run (one success of two attempts) yields `"50.0"`. -/
theorem overallStats_contract (st : ClimbState) :
    (st.sessions = [] → getOverallStats st = ⟨0, 0, 0, .rnum 0⟩) ∧
    ((getAllAttempts st).length = 0 →
       (getOverallStats st).overallSuccessRate = .rnum 0 ∧
       (getOverallStats st).totalSessions = st.sessions.length) ∧
    (0 < (getAllAttempts st).length →
       (getOverallStats st).overallSuccessRate =
         .rstr (toFixed1 (((getAllAttempts st).filter (fun a => a.success.truthy)).length * 100)
           (getAllAttempts st).length)) ∧
    getOverallStats (runOps opsTwoAttempts initState) = ⟨1, 2, 1, .rstr "50.0"⟩ := by
  refine ⟨?_, ?_, ?_, by decide⟩
  · intro h
    simp [getOverallStats, getAllAttempts, h]
  · intro h
    exact ⟨by simp [getOverallStats, h], rfl⟩
  · intro h
    simp [getOverallStats, h]

/-- Witness for C6: a one-attempt history formats its rate as a string, and a
fresh store reports the all-zero record with a numeric rate. -/
theorem overallStats_contract_witness :
    (getOverallStats stHist).overallSuccessRate = .rstr (toFixed1 100 1) ∧
    getOverallStats initState = ⟨0, 0, 0, .rnum 0⟩ :=
  ⟨(overallStats_contract stHist).2.2.1 (by decide),
   (overallStats_contract initState).1 rfl⟩

/-- Counterexample for C6: after start/add/finish/delete-attempt the history
holds one session and zero attempts, and `getOverallStats` reports
`totalSessions = 1`, not the all-zero record the claim states for a
zero-attempt history. -/
theorem stats_emptySession_cex :
    getOverallStats (runOps opsEmptySession initState) = ⟨1, 0, 0, .rnum 0⟩ := by
  decide

/-- C7 (amended): exporting and importing the backup reproduces the session
list exactly, provided every field value survives the JSON round trip (no
`Date`-valued entries inside route snapshots); the session `date` and attempt
`timestamp` fields are reconstructed exactly. The imported history fully
replaces the target store's history and is persisted. -/
theorem export_import_roundtrip (now : Nat) (st target : ClimbState)
    (h : ∀ s ∈ st.sessions, sessionStable s) :
    (importData (exportData now st) target).sessions = st.sessions ∧
    (importData (exportData now st) target).sessionsStore = st.sessions := by
  have hs : (st.sessions.map serializeSession).map deserializeSession = st.sessions :=
    map_deserialize_serialize_sessions st.sessions h
  unfold importData exportData
  cases hc : st.currentSession with
  | none => simp [hc, saveSessions, hs]
  | some c => simp [hc, saveSessions, saveDraft, hs]

/-- Witness for C7: the sample history (route snapshots with no embedded
dates) round-trips exactly, into any target store. -/
theorem export_import_roundtrip_witness :
    (importData (exportData 3 stHist) initState).sessions = stHist.sessions :=
  (export_import_roundtrip 3 stHist initState (by decide)).1

/-- Counterexample for C7: a route snapshot with a `Date`-valued `createdAt`
comes back as a string — `importData` only reconstructs session dates and
attempt timestamps — so the round trip is not deep-equal to the original. -/
theorem export_import_cex :
    (importData (exportData 0 stDated) stDated).sessions ≠ stDated.sessions ∧
    (importData (exportData 0 stDated) stDated).sessions =
      [⟨1, 100, .vStr "Gym", [{ attDated with route := .vRoute "R1" "red" (.vStr "5") }]⟩] :=
  ⟨by decide, by decide⟩

/-- C8: the legacy-storage migration never propagates an error — the whole
body is wrapped in a catch that only logs, so any inner failure (such as a
corrupt, unparseable record) is absorbed into a normal return of the state at
the failure point — and when neither legacy key is present it changes
nothing. -/
theorem migration_contract :
    (∀ ls db, ls.climbingSessions = none → ls.climbingSessionDraft = none →
       migrateFromLocalStorage ls db = (ls, db)) ∧
    (∀ ls db e, migrateInner ls db = .error e → migrateFromLocalStorage ls db = e) ∧
    (∀ db, migrateInner ⟨some .corrupt, none⟩ db = .error (⟨some .corrupt, none⟩, db) ∧
       migrateFromLocalStorage ⟨some .corrupt, none⟩ db = (⟨some .corrupt, none⟩, db)) := by
  refine ⟨?_, ?_, ?_⟩
  · intro ls db h1 h2
    simp [migrateFromLocalStorage, migrateInner, h1, h2]
  · intro ls db e h
    simp [migrateFromLocalStorage, h]
  · intro db
    exact ⟨rfl, rfl⟩

/-- Witness for C8: with no legacy keys the migration is a no-op, and with a
corrupt sessions record it returns normally, leaving the state unchanged. -/
theorem migration_contract_witness :
    migrateFromLocalStorage ⟨none, none⟩ ⟨[], none⟩ = (⟨none, none⟩, ⟨[], none⟩) ∧
    migrateFromLocalStorage ⟨some .corrupt, none⟩ ⟨[], none⟩ =
      (⟨some .corrupt, none⟩, ⟨[], none⟩) :=
  ⟨migration_contract.1 ⟨none, none⟩ ⟨[], none⟩ rfl rfl,
   (migration_contract.2.2 ⟨[], none⟩).2⟩

/-- C9 (amended): `deleteRoute` removes the record keyed `id` when present and
keeps every other record, but its promise always resolves `true` — the return
value does not report whether a record existed. -/
theorem deleteRoute_contract (id : Nat) (db : List Route) :
    (deleteRoute id db).1 = true ∧
    routeExists id (deleteRoute id db).2 = false ∧
    ∀ r ∈ db, r.id ≠ id → r ∈ (deleteRoute id db).2 := by
  refine ⟨rfl, ?_, ?_⟩
  · simp [routeExists, deleteRoute, List.any_eq_true, List.mem_filter]
  · intro r hr hne
    simp only [deleteRoute, List.mem_filter]
    exact ⟨hr, by simpa using hne⟩

/-- Witness for C9: deleting route 1 from a two-route store returns `true`,
removes it, and keeps route 2. -/
theorem deleteRoute_contract_witness :
    (deleteRoute 1 [rtA, rtB]).1 = true ∧
    routeExists 1 (deleteRoute 1 [rtA, rtB]).2 = false ∧
    rtB ∈ (deleteRoute 1 [rtA, rtB]).2 :=
  ⟨(deleteRoute_contract 1 [rtA, rtB]).1,
   (deleteRoute_contract 1 [rtA, rtB]).2.1,
   (deleteRoute_contract 1 [rtA, rtB]).2.2 rtB (by decide) (by decide)⟩

/-- Counterexample for C9: deleting from an empty route store still resolves
`true`, though no record existed — the returned boolean does not equal prior
existence. -/
theorem deleteRoute_cex :
    (deleteRoute 1 []).1 = true ∧ routeExists 1 [] = false ∧
      (deleteRoute 1 []).1 ≠ routeExists 1 [] :=
  ⟨rfl, rfl, by decide⟩

/-- C10: a successful `deleteAttempt` on a history session removes only the
targeted attempt and never the session itself — the history keeps its length,
the session is still found (possibly with an empty attempt list), and such
sessions still count in `getOverallStats().totalSessions`. -/
theorem deleteAttempt_keeps_session (st : ClimbState) (sid aid : Nat)
    (s : Session) (att : Attempt)
    (hs : st.sessions.find? (fun t => t.id == sid) = some s)
    (ha : s.attempts.find? (fun x => x.id == aid) = some att) :
    deleteAttempt sid aid st = .ok (att, historyDeleteState sid aid st) ∧
    (historyDeleteState sid aid st).sessions.length = st.sessions.length ∧
    (getOverallStats (historyDeleteState sid aid st)).totalSessions = st.sessions.length ∧
    (historyDeleteState sid aid st).sessions.find? (fun t => t.id == sid) =
      some { s with attempts := removeFirst (fun x => x.id == aid) s.attempts } := by
  have hlen : (historyDeleteState sid aid st).sessions.length = st.sessions.length := by
    simp [historyDeleteState, saveSessions, updateFirst_length]
  refine ⟨?_, hlen, ?_, ?_⟩
  · unfold deleteAttempt
    simp only [hs, ha]
    rfl
  · exact hlen
  · have hsid := List.find?_some hs
    have hfu := find?_updateFirst (fun t => t.id == sid)
      (fun ses => { ses with attempts := removeFirst (fun x => x.id == aid) ses.attempts })
      st.sessions s hs (by simpa using hsid)
    simpa [historyDeleteState, saveSessions] using hfu

/-- Witness for C10: deleting the only attempt of the sample history session
leaves the session in history with an empty attempt list, still counted by the
statistics. -/
theorem deleteAttempt_keeps_session_witness :
    deleteAttempt 1 10 stHist = .ok (attEx, historyDeleteState 1 10 stHist) ∧
    (getOverallStats (historyDeleteState 1 10 stHist)).totalSessions = 1 ∧
    (historyDeleteState 1 10 stHist).sessions.find? (fun t => t.id == 1) =
      some { sesEx with attempts := [] } := by
  have h := deleteAttempt_keeps_session stHist 1 10 sesEx attEx rfl rfl
  exact ⟨h.1, h.2.2.1, h.2.2.2⟩
